import Mathlib

/-!
Shallow embedding of the ledger engine of src/bank.py: the account store,
the transaction log, the recurring-payment registry, and the operations
transfer_money, charge_customer, create_recurring_payment,
cancel_recurring_payment and process_recurring_payments.

Currency amounts (Python floats in the source) are modelled as exact
rationals; timestamps (datetime values) as integer seconds, so that
timedelta(days=d) is d * 86400 seconds and timedelta(weeks=1) is
7 * 86400 seconds.  Database rows are lists in insertion order; the
filter_by(...).first() queries of the source become List.find? with the
same predicates, and in-place ORM mutation of a row becomes an id-keyed
functional update of the list.  Each route handler returns its result
value together with the state after commit; error returns leave the
state untouched, exactly as the source returns before any mutation.
-/

namespace Bank

structure User where
  id : Nat
  username : String
  pin : String
deriving Repr, DecidableEq

structure Account where
  id : Nat
  accountNumber : String
  accountType : String
  balance : ℚ
  userId : Nat
deriving Repr, DecidableEq

structure Transaction where
  fromAccountId : Nat
  toAccountId : Nat
  amount : ℚ
  description : String
  transactionType : String
deriving Repr, DecidableEq

structure RecurringPayment where
  id : Nat
  fromAccountId : Nat
  toAccountId : Nat
  amount : ℚ
  description : String
  frequency : String
  isActive : Bool
  nextPaymentDate : Int
deriving Repr, DecidableEq

structure BankState where
  users : List User
  accounts : List Account
  transactions : List Transaction
  recurringPayments : List RecurringPayment
deriving Repr, DecidableEq

/-- In-place mutation of one account row's balance (`acct.balance += d` on the
row with primary key `i`), as a functional update of the account table. -/
def adjustBalance (l : List Account) (i : Nat) (d : ℚ) : List Account :=
  l.map fun a => if a.id = i then { a with balance := a.balance + d } else a

/-- The list of primary keys of the account table. -/
def accountIds (l : List Account) : List Nat := l.map (·.id)

/-- Primary-key uniqueness of the accounts table (guaranteed by the database). -/
abbrev WFAccounts (s : BankState) : Prop := (accountIds s.accounts).Nodup

/-- Uniqueness of account numbers (the `unique=True` column constraint). -/
abbrev WFNumbers (s : BankState) : Prop := (s.accounts.map (·.accountNumber)).Nodup

/-- Total money in the system. -/
def sumBalances (l : List Account) : ℚ := (l.map (·.balance)).sum

/-- The balance of the account row with primary key `i`, when present. -/
def balanceOf (s : BankState) (i : Nat) : Option ℚ :=
  (s.accounts.find? fun a => a.id == i).map (·.balance)

/-- Error outcomes of the /transfer handler, one per early-return branch. -/
inductive TransferError where
  | fieldsRequired
  | amountNotPositive
  | sourceNotFoundOrNotOwned
  | destNotFound
  | insufficientFunds
deriving Repr, DecidableEq

/-- transfer_money (src/bank.py lines 218-272).  The acting user id is the
session user; empty strings and a zero amount model missing/falsy fields. -/
def transfer_money (s : BankState) (uid : Nat) (fromN toN : String) (amount : ℚ)
    (descr : String) : Except TransferError Transaction × BankState :=
  if fromN = "" ∨ toN = "" ∨ amount = 0 then (.error .fieldsRequired, s)
  else if amount ≤ 0 then (.error .amountNotPositive, s)
  else
    match s.accounts.find? fun a => a.accountNumber == fromN && a.userId == uid with
    | none => (.error .sourceNotFoundOrNotOwned, s)
    | some fromA =>
      match s.accounts.find? fun a => a.accountNumber == toN with
      | none => (.error .destNotFound, s)
      | some toA =>
        if fromA.balance < amount then (.error .insufficientFunds, s)
        else
          let txn : Transaction :=
            { fromAccountId := fromA.id, toAccountId := toA.id, amount := amount,
              description := descr, transactionType := "transfer" }
          (.ok txn,
            { s with
              accounts := adjustBalance (adjustBalance s.accounts fromA.id (-amount)) toA.id amount,
              transactions := s.transactions ++ [txn] })

/-- Error outcomes of the /charge handler, one per early-return branch.  The
source uses a single 404 message, Business account not found or not owned by
you, for a missing number, a foreign owner and a non-business kind alike. -/
inductive ChargeError where
  | fieldsRequired
  | amountNotPositive
  | businessAccountNotFoundOrNotOwned
  | invalidCustomerCredentials
  | customerAccountNotFound
  | customerInsufficientFunds
deriving Repr, DecidableEq

/-- charge_customer (src/bank.py lines 274-350). -/
def charge_customer (s : BankState) (uid : Nat) (busN custUser custPin : String)
    (amount : ℚ) (reason descr : String) : Except ChargeError Transaction × BankState :=
  if busN = "" ∨ custUser = "" ∨ custPin = "" ∨ amount = 0 ∨ reason = "" then
    (.error .fieldsRequired, s)
  else if amount ≤ 0 then (.error .amountNotPositive, s)
  else
    match s.accounts.find? fun a =>
        a.accountNumber == busN && a.userId == uid && a.accountType == "business" with
    | none => (.error .businessAccountNotFoundOrNotOwned, s)
    | some busA =>
      match s.users.find? fun u => u.username == custUser && u.pin == custPin with
      | none => (.error .invalidCustomerCredentials, s)
      | some cust =>
        match s.accounts.find? fun a => a.userId == cust.id with
        | none => (.error .customerAccountNotFound, s)
        | some custA =>
          if custA.balance < amount then (.error .customerInsufficientFunds, s)
          else
            let fullDescr :=
              if descr = "" then "INVOICE: " ++ reason
              else "INVOICE: " ++ reason ++ " - " ++ descr
            let txn : Transaction :=
              { fromAccountId := custA.id, toAccountId := busA.id, amount := amount,
                description := fullDescr, transactionType := "charge" }
            (.ok txn,
              { s with
                accounts := adjustBalance (adjustBalance s.accounts custA.id (-amount)) busA.id amount,
                transactions := s.transactions ++ [txn] })

/-- The fixed cadence offset, in seconds: weekly = 7 days, monthly = 30 days,
yearly = 365 days; any other string falls through the if/elif chain of the
source with no offset at all. -/
def cadenceOffset (freq : String) : Int :=
  if freq = "weekly" then 7 * 86400
  else if freq = "monthly" then 30 * 86400
  else if freq = "yearly" then 365 * 86400
  else 0

/-- Error outcomes of the POST /recurring_payments handler. -/
inductive CreateRecurringError where
  | fieldsRequired
  | amountNotPositive
  | invalidFrequency
  | businessAccountNotFoundOrNotOwned
  | recipientNotFound
deriving Repr, DecidableEq

/-- The autoincrement primary key for a new recurring-payment row. -/
def nextRecurringId (s : BankState) : Nat :=
  (s.recurringPayments.map (·.id)).foldr max 0 + 1

/-- create_recurring_payment (src/bank.py lines 375-441). -/
def create_recurring_payment (s : BankState) (uid : Nat) (busN recipN : String)
    (amount : ℚ) (descr freq : String) (now : Int) :
    Except CreateRecurringError RecurringPayment × BankState :=
  if busN = "" ∨ recipN = "" ∨ amount = 0 then (.error .fieldsRequired, s)
  else if amount ≤ 0 then (.error .amountNotPositive, s)
  else if ¬(freq = "weekly" ∨ freq = "monthly" ∨ freq = "yearly") then
    (.error .invalidFrequency, s)
  else
    match s.accounts.find? fun a =>
        a.accountNumber == busN && a.userId == uid && a.accountType == "business" with
    | none => (.error .businessAccountNotFoundOrNotOwned, s)
    | some busA =>
      match s.accounts.find? fun a => a.accountNumber == recipN with
      | none => (.error .recipientNotFound, s)
      | some recipA =>
        let rp : RecurringPayment :=
          { id := nextRecurringId s, fromAccountId := busA.id, toAccountId := recipA.id,
            amount := amount, description := descr, frequency := freq, isActive := true,
            nextPaymentDate := now + cadenceOffset freq }
        (.ok rp, { s with recurringPayments := s.recurringPayments ++ [rp] })

/-- Error outcomes of the DELETE /recurring_payments handler. -/
inductive CancelError where
  | paymentNotFound
  | unauthorized
deriving Repr, DecidableEq

/-- The soft-cancel mutation `recurring_payment.is_active = False` on the row
with primary key `pid`. -/
def deactivate (pid : Nat) (p : RecurringPayment) : RecurringPayment :=
  if p.id = pid then { p with isActive := false } else p

/-- cancel_recurring_payment (src/bank.py lines 466-490). -/
def cancel_recurring_payment (s : BankState) (uid : Nat) (pid : Nat) :
    Except CancelError Unit × BankState :=
  match s.recurringPayments.find? fun p => p.id == pid with
  | none => (.error .paymentNotFound, s)
  | some rp =>
    match s.accounts.find? fun a =>
        a.id == rp.fromAccountId && a.userId == uid && a.accountType == "business" with
    | none => (.error .unauthorized, s)
    | some _ =>
      (.ok (), { s with recurringPayments := s.recurringPayments.map (deactivate pid) })

/-- The pair returned by process_recurring_payments. -/
structure ProcessTally where
  processed : Nat
  failed : Nat
deriving Repr, DecidableEq

/-- The mutable state threaded through the processing loop. -/
structure ProcState where
  accounts : List Account
  transactions : List Transaction
  tally : ProcessTally
deriving Repr, DecidableEq

/-- The due filter of the source query: is_active == True and
next_payment_date <= current_time. -/
def dueNow (now : Int) (p : RecurringPayment) : Bool :=
  p.isActive && decide (p.nextPaymentDate ≤ now)

/-- payment.next_payment_date += cadence offset (no-offset fall-through for an
unknown frequency string included, as in the source). -/
def advancePayment (p : RecurringPayment) : RecurringPayment :=
  { p with nextPaymentDate := p.nextPaymentDate + cadenceOffset p.frequency }

/-- One iteration of the processing loop of src/bank.py lines 506-541 on a
single registry row.  A missing from_account raises inside the try (the
relationship access yields None) before any mutation, so it lands in the
except branch: failed is bumped and nothing changes.  A missing to_account
raises after the debit has been applied, so the debit survives to the final
commit while the row is counted failed; with intact foreign keys this branch
is unreachable. -/
def processOnePayment (now : Int) (st : ProcState) (p : RecurringPayment) :
    ProcState × RecurringPayment :=
  if dueNow now p then
    match st.accounts.find? fun a => a.id == p.fromAccountId with
    | none =>
      ({ st with tally := { st.tally with failed := st.tally.failed + 1 } }, p)
    | some fromA =>
      if p.amount ≤ fromA.balance then
        let accts1 := adjustBalance st.accounts p.fromAccountId (-p.amount)
        if (accts1.find? fun a => a.id == p.toAccountId).isSome then
          let txn : Transaction :=
            { fromAccountId := p.fromAccountId, toAccountId := p.toAccountId,
              amount := p.amount, description := "SALARY: " ++ p.description,
              transactionType := "salary" }
          ({ accounts := adjustBalance accts1 p.toAccountId p.amount,
             transactions := st.transactions ++ [txn],
             tally := { st.tally with processed := st.tally.processed + 1 } },
           advancePayment p)
        else
          ({ st with accounts := accts1, tally := { st.tally with failed := st.tally.failed + 1 } }, p)
      else
        ({ st with tally := { st.tally with failed := st.tally.failed + 1 } }, p)
  else (st, p)

/-- The processing loop over the whole registry, returning the final loop
state and the new registry.  The source iterates the pre-filtered due list
while mutating the shared rows; since each row is visited at most once, the
per-row due test on the unmodified row is equivalent. -/
def processAll (now : Int) (st : ProcState) :
    List RecurringPayment → ProcState × List RecurringPayment
  | [] => (st, [])
  | p :: ps =>
    let r := processOnePayment now st p
    let rest := processAll now r.1 ps
    (rest.1, r.2 :: rest.2)

/-- process_recurring_payments (src/bank.py lines 492-549). -/
def process_recurring_payments (s : BankState) (now : Int) : ProcessTally × BankState :=
  let r := processAll now ⟨s.accounts, s.transactions, ⟨0, 0⟩⟩ s.recurringPayments
  (r.1.tally,
    { s with accounts := r.1.accounts, transactions := r.1.transactions, recurringPayments := r.2 })

/-! ## Basic lemmas about the account store -/

theorem adjustBalance_ids (l : List Account) (i : Nat) (d : ℚ) :
    accountIds (adjustBalance l i d) = accountIds l := by
  induction l with
  | nil => rfl
  | cons a t ih =>
    simp only [adjustBalance, accountIds, List.map_cons] at *
    refine congrArg₂ _ ?_ ih
    split <;> rfl

theorem id_mem_unique {l : List Account} (h : (accountIds l).Nodup) {a b : Account}
    (ha : a ∈ l) (hb : b ∈ l) (hid : a.id = b.id) : a = b := by
  induction l with
  | nil => cases ha
  | cons c t ih =>
    simp only [accountIds, List.map_cons, List.nodup_cons] at h
    rcases List.mem_cons.mp ha with rfl | ha2
    · rcases List.mem_cons.mp hb with rfl | hb2
      · rfl
      · exact absurd (hid ▸ List.mem_map_of_mem (·.id) hb2) h.1
    · rcases List.mem_cons.mp hb with rfl | hb2
      · exact absurd (hid ▸ List.mem_map_of_mem (·.id) ha2) h.1
      · exact ih h.2 ha2 hb2

theorem number_mem_unique {l : List Account} (h : (l.map (·.accountNumber)).Nodup)
    {a b : Account} (ha : a ∈ l) (hb : b ∈ l)
    (hn : a.accountNumber = b.accountNumber) : a = b := by
  induction l with
  | nil => cases ha
  | cons c t ih =>
    simp only [List.map_cons, List.nodup_cons] at h
    rcases List.mem_cons.mp ha with rfl | ha2
    · rcases List.mem_cons.mp hb with rfl | hb2
      · rfl
      · exact absurd (hn ▸ List.mem_map_of_mem (·.accountNumber) hb2) h.1
    · rcases List.mem_cons.mp hb with rfl | hb2
      · exact absurd (hn ▸ List.mem_map_of_mem (·.accountNumber) ha2) h.1
      · exact ih h.2 ha2 hb2

theorem find?_id_of_mem {l : List Account} (h : (accountIds l).Nodup) {a : Account}
    (ha : a ∈ l) : l.find? (fun b => b.id == a.id) = some a := by
  induction l with
  | nil => cases ha
  | cons c t ih =>
    by_cases hc : c.id = a.id
    · have : c = a :=
        id_mem_unique h (List.mem_cons_self c t) ha hc
      subst this
      simp [List.find?_cons_of_pos]
    · have ha2 : a ∈ t := by
        rcases List.mem_cons.mp ha with rfl | h2
        · exact absurd rfl hc
        · exact h2
      have h2 : (accountIds t).Nodup := by
        simp only [accountIds, List.map_cons, List.nodup_cons] at h
        exact h.2
      rw [List.find?_cons_of_neg, ih h2 ha2]
      simpa using hc

theorem find?_number_of_mem {l : List Account} (h : (l.map (·.accountNumber)).Nodup)
    {a : Account} (ha : a ∈ l) :
    l.find? (fun b => b.accountNumber == a.accountNumber) = some a := by
  induction l with
  | nil => cases ha
  | cons c t ih =>
    by_cases hc : c.accountNumber = a.accountNumber
    · have : c = a := number_mem_unique h (List.mem_cons_self c t) ha hc
      subst this
      simp [List.find?_cons_of_pos]
    · have ha2 : a ∈ t := by
        rcases List.mem_cons.mp ha with rfl | h2
        · exact absurd rfl hc
        · exact h2
      have h2 : (t.map (·.accountNumber)).Nodup := by
        simp only [List.map_cons, List.nodup_cons] at h
        exact h.2
      rw [List.find?_cons_of_neg, ih h2 ha2]
      simpa using hc

theorem find?_adjustBalance (l : List Account) (i j : Nat) (d : ℚ) :
    (adjustBalance l j d).find? (fun a => a.id == i) =
      (l.find? (fun a => a.id == i)).map
        (fun a => if a.id = j then { a with balance := a.balance + d } else a) := by
  induction l with
  | nil => rfl
  | cons a t ih =>
    simp only [adjustBalance, List.map_cons] at *
    by_cases hi : a.id = i
    · have h2 : ((if a.id = j then { a with balance := a.balance + d } else a).id == i) = true := by
        split <;> simpa using hi
      have h3 : (a.id == i) = true := by simpa using hi
      simp only [List.find?_cons, h2, h3]
      rfl
    · have h2 : ((if a.id = j then { a with balance := a.balance + d } else a).id == i) = false := by
        split <;> simpa using hi
      have h3 : (a.id == i) = false := by simpa using hi
      simp only [List.find?_cons, h2, h3]
      exact ih

theorem sumBalances_adjust (l : List Account) (i : Nat) (d : ℚ) :
    sumBalances (adjustBalance l i d) =
      sumBalances l + d * ((accountIds l).count i : ℚ) := by
  induction l with
  | nil => simp [sumBalances, adjustBalance, accountIds]
  | cons a t ih =>
    by_cases hi : a.id = i
    · have hc : (accountIds (a :: t)).count i = (accountIds t).count i + 1 := by
        simp [accountIds, List.count_cons, hi]
      have hd : adjustBalance (a :: t) i d =
          { a with balance := a.balance + d } :: adjustBalance t i d := by
        simp [adjustBalance, hi]
      rw [hd]
      simp only [sumBalances, List.map_cons, List.sum_cons] at *
      rw [ih, hc]
      push_cast
      ring
    · have hc : (accountIds (a :: t)).count i = (accountIds t).count i := by
        simp [accountIds, List.count_cons, hi]
      have hd : adjustBalance (a :: t) i d = a :: adjustBalance t i d := by
        simp [adjustBalance, hi]
      rw [hd]
      simp only [sumBalances, List.map_cons, List.sum_cons] at *
      rw [ih, hc]
      ring

theorem count_accountIds_eq_one {l : List Account} (h : (accountIds l).Nodup) {a : Account}
    (ha : a ∈ l) : (accountIds l).count a.id = 1 :=
  List.count_eq_one_of_mem h (List.mem_map_of_mem (·.id) ha)

theorem adjustBalance_nonneg {l : List Account} {i : Nat} {d : ℚ}
    (h0 : ∀ a ∈ l, 0 ≤ a.balance) (hi : ∀ a ∈ l, a.id = i → 0 ≤ a.balance + d) :
    ∀ a ∈ adjustBalance l i d, 0 ≤ a.balance := by
  intro b hb
  rcases List.mem_map.mp hb with ⟨a, ha, rfl⟩
  by_cases hid : a.id = i
  · simpa [hid] using hi a ha hid
  · simpa [hid] using h0 a ha

theorem debit_nonneg {l : List Account} (hnd : (accountIds l).Nodup)
    {fromA : Account} {i : Nat} (hf : l.find? (fun a => a.id == i) = some fromA)
    {m : ℚ} (hm : m ≤ fromA.balance) (h0 : ∀ a ∈ l, 0 ≤ a.balance) :
    ∀ a ∈ adjustBalance l i (-m), 0 ≤ a.balance := by
  refine adjustBalance_nonneg h0 ?_
  intro a ha haid
  have hfid : fromA.id = i := by simpa using List.find?_some hf
  have : a = fromA :=
    id_mem_unique hnd ha (List.mem_of_find?_eq_some hf) (by rw [haid, hfid])
  subst this
  linarith

theorem debit_nonneg_mem {l : List Account} (hnd : (accountIds l).Nodup)
    {fromA : Account} (hmem : fromA ∈ l) {m : ℚ} (hm : m ≤ fromA.balance)
    (h0 : ∀ a ∈ l, 0 ≤ a.balance) :
    ∀ a ∈ adjustBalance l fromA.id (-m), 0 ≤ a.balance := by
  refine adjustBalance_nonneg h0 ?_
  intro a ha haid
  have : a = fromA := id_mem_unique hnd ha hmem haid
  subst this
  linarith

theorem credit_nonneg {l : List Account} {j : Nat} {m : ℚ} (hm : 0 ≤ m)
    (h0 : ∀ a ∈ l, 0 ≤ a.balance) : ∀ a ∈ adjustBalance l j m, 0 ≤ a.balance := by
  refine adjustBalance_nonneg h0 ?_
  intro a ha _
  have := h0 a ha
  linarith

theorem adjustBalance_cancel (l : List Account) (i : Nat) (d : ℚ) :
    adjustBalance (adjustBalance l i d) i (-d) = l := by
  induction l with
  | nil => rfl
  | cons a t ih =>
    by_cases hi : a.id = i
    · have h1 : adjustBalance (a :: t) i d =
          { a with balance := a.balance + d } :: adjustBalance t i d := by
        simp [adjustBalance, hi]
      rw [h1]
      have h2 : adjustBalance ({ a with balance := a.balance + d } :: adjustBalance t i d) i (-d) =
          { a with balance := a.balance + d + -d } :: adjustBalance (adjustBalance t i d) i (-d) := by
        simp [adjustBalance, hi]
      rw [h2, ih]
      have : a.balance + d + -d = a.balance := by ring
      rw [this]

    · have h1 : adjustBalance (a :: t) i d = a :: adjustBalance t i d := by
        simp [adjustBalance, hi]
      have h2 : adjustBalance (a :: adjustBalance t i d) i (-d) =
          a :: adjustBalance (adjustBalance t i d) i (-d) := by
        simp [adjustBalance, hi]
      rw [h1, h2, ih]

/-! ## Lemmas about the recurring-payment processing loop -/

theorem processOnePayment_not_due (now : Int) (st : ProcState) {p : RecurringPayment}
    (h : dueNow now p = false) : processOnePayment now st p = (st, p) := by
  unfold processOnePayment
  simp [h]

theorem processOnePayment_fail_eq (now : Int) (st : ProcState) {p : RecurringPayment}
    {fromA : Account} (hd : dueNow now p = true)
    (hf : st.accounts.find? (fun a => a.id == p.fromAccountId) = some fromA)
    (hlt : fromA.balance < p.amount) :
    processOnePayment now st p =
      ({ st with tally := { st.tally with failed := st.tally.failed + 1 } }, p) := by
  have hnle : ¬(p.amount ≤ fromA.balance) := not_le.mpr hlt
  unfold processOnePayment
  simp [hd, hf, hnle]

theorem processOnePayment_success_eq (now : Int) (st : ProcState) {p : RecurringPayment}
    {fromA : Account} (hd : dueNow now p = true)
    (hf : st.accounts.find? (fun a => a.id == p.fromAccountId) = some fromA)
    (hge : p.amount ≤ fromA.balance)
    (hto : p.toAccountId ∈ accountIds st.accounts) :
    processOnePayment now st p =
      ({ accounts := adjustBalance (adjustBalance st.accounts p.fromAccountId (-p.amount))
            p.toAccountId p.amount,
         transactions := st.transactions ++
           [⟨p.fromAccountId, p.toAccountId, p.amount, "SALARY: " ++ p.description, "salary"⟩],
         tally := { st.tally with processed := st.tally.processed + 1 } },
       advancePayment p) := by
  have hmem : p.toAccountId ∈ accountIds (adjustBalance st.accounts p.fromAccountId (-p.amount)) := by
    rw [adjustBalance_ids]
    exact hto
  have hsome : ((adjustBalance st.accounts p.fromAccountId (-p.amount)).find?
      (fun a => a.id == p.toAccountId)).isSome = true := by
    rw [List.find?_isSome]
    rcases List.mem_map.mp hmem with ⟨a, ha, haid⟩
    exact ⟨a, ha, by simpa using haid⟩
  unfold processOnePayment
  simp [hd, hf, hge, hsome]

theorem processOnePayment_tally (now : Int) (st : ProcState) (p : RecurringPayment) :
    (processOnePayment now st p).1.tally.processed + (processOnePayment now st p).1.tally.failed =
      st.tally.processed + st.tally.failed + (if dueNow now p then 1 else 0) := by
  unfold processOnePayment
  split
  · split
    · dsimp only
      omega
    · split
      · dsimp only
        split
        · dsimp only
          omega
        · dsimp only
          omega
      · dsimp only
        omega
  · dsimp only
    omega

theorem processOnePayment_failed_mono (now : Int) (st : ProcState) (p : RecurringPayment) :
    st.tally.failed ≤ (processOnePayment now st p).1.tally.failed := by
  unfold processOnePayment
  split
  · split
    · dsimp only
      omega
    · split
      · dsimp only
        split
        · dsimp only
          omega
        · dsimp only
          omega
      · dsimp only
        omega
  · dsimp only
    omega

theorem processAll_failed_mono (now : Int) :
    ∀ (ps : List RecurringPayment) (st : ProcState),
      st.tally.failed ≤ (processAll now st ps).1.tally.failed := by
  intro ps
  induction ps with
  | nil => intro st; simp [processAll]
  | cons p t ih =>
    intro st
    simp only [processAll]
    exact le_trans (processOnePayment_failed_mono now st p) (ih _)

theorem processAll_tally (now : Int) :
    ∀ (ps : List RecurringPayment) (st : ProcState),
      (processAll now st ps).1.tally.processed + (processAll now st ps).1.tally.failed =
        st.tally.processed + st.tally.failed + ps.countP (dueNow now) := by
  intro ps
  induction ps with
  | nil => intro st; simp [processAll]
  | cons p t ih =>
    intro st
    simp only [processAll, List.countP_cons]
    rw [ih]
    have hstep := processOnePayment_tally now st p
    by_cases h : dueNow now p = true
    · simp only [h, if_pos] at hstep ⊢
      omega
    · have hfalse : dueNow now p = false := by simpa using h
      simp [hfalse] at hstep ⊢
      omega

theorem processAll_none_due (now : Int) :
    ∀ (ps : List RecurringPayment) (st : ProcState),
      (∀ p ∈ ps, dueNow now p = false) → processAll now st ps = (st, ps) := by
  intro ps
  induction ps with
  | nil => intro st _; rfl
  | cons p t ih =>
    intro st h
    have h1 := processOnePayment_not_due now st (h p (List.mem_cons_self p t))
    have h2 := ih st (fun q hq => h q (List.mem_cons.mpr (Or.inr hq)))
    simp [processAll, h1, h2]

theorem processOnePayment_spec (now : Int) (st : ProcState) (p : RecurringPayment) :
    ((processOnePayment now st p).2 = p ∧
       (processOnePayment now st p).1.tally.failed = st.tally.failed + 1) ∨
    ((processOnePayment now st p).2 = p ∧ (processOnePayment now st p).1 = st ∧
       dueNow now p = false) ∨
    ((processOnePayment now st p).2 = advancePayment p ∧ dueNow now p = true ∧
       (processOnePayment now st p).1.tally.failed = st.tally.failed) := by
  unfold processOnePayment
  split
  · rename_i hd
    split
    · left
      exact ⟨rfl, rfl⟩
    · split
      · dsimp only
        split
        · right
          right
          exact ⟨rfl, hd, rfl⟩
        · left
          exact ⟨rfl, rfl⟩
      · left
        exact ⟨rfl, rfl⟩
  · rename_i hd
    right
    left
    exact ⟨rfl, rfl, by simpa using hd⟩

theorem processAll_registry (now : Int) :
    ∀ (ps : List RecurringPayment) (st : ProcState),
      (processAll now st ps).1.tally.failed = st.tally.failed →
      ∀ q ∈ (processAll now st ps).2, ∃ p ∈ ps,
        (dueNow now p = false ∧ q = p) ∨ (dueNow now p = true ∧ q = advancePayment p) := by
  intro ps
  induction ps with
  | nil => intro st _ q hq; cases hq
  | cons p t ih =>
    intro st hf q hq
    simp only [processAll] at hf hq
    have hmono := processAll_failed_mono now t (processOnePayment now st p).1
    rcases processOnePayment_spec now st p with ⟨_, h2⟩ | ⟨h1, h2, h3⟩ | ⟨h1, h2, h3⟩
    · omega
    · rw [h1, h2] at hq
      rcases List.mem_cons.mp hq with heq | hq2
      · exact ⟨p, List.mem_cons_self p t, Or.inl ⟨h3, heq⟩⟩
      · rw [h2] at hf
        rcases ih st hf q hq2 with ⟨r, hr, hcase⟩
        exact ⟨r, List.mem_cons.mpr (Or.inr hr), hcase⟩
    · rw [h1] at hq
      rcases List.mem_cons.mp hq with heq | hq2
      · exact ⟨p, List.mem_cons_self p t, Or.inr ⟨h2, heq⟩⟩
      · have hf2 : (processAll now (processOnePayment now st p).1 t).1.tally.failed =
            (processOnePayment now st p).1.tally.failed := by omega
        rcases ih (processOnePayment now st p).1 hf2 q hq2 with ⟨r, hr, hcase⟩
        exact ⟨r, List.mem_cons.mpr (Or.inr hr), hcase⟩

theorem mem_accountIds_isSome {l : List Account} {i : Nat} (h : i ∈ accountIds l) :
    ((l.find? fun a => a.id == i).isSome) = true := by
  rw [List.find?_isSome]
  rcases List.mem_map.mp h with ⟨a, ha, haid⟩
  exact ⟨a, ha, by simpa using haid⟩

theorem processOnePayment_ids (now : Int) (st : ProcState) (p : RecurringPayment) :
    accountIds (processOnePayment now st p).1.accounts = accountIds st.accounts := by
  unfold processOnePayment
  split
  · split
    · rfl
    · split
      · dsimp only
        split
        · dsimp only
          rw [adjustBalance_ids, adjustBalance_ids]
        · dsimp only
          rw [adjustBalance_ids]
      · rfl
  · rfl

theorem processOnePayment_accounts_nonneg (now : Int) (st : ProcState) (p : RecurringPayment)
    (hnd : (accountIds st.accounts).Nodup)
    (h0 : ∀ a ∈ st.accounts, 0 ≤ a.balance) (hamt : 0 ≤ p.amount) :
    ∀ a ∈ (processOnePayment now st p).1.accounts, 0 ≤ a.balance := by
  unfold processOnePayment
  split
  · split
    · exact h0
    · rename_i fromA hf
      split
      · rename_i hge
        dsimp only
        split
        · dsimp only
          exact credit_nonneg hamt (debit_nonneg hnd hf hge h0)
        · dsimp only
          exact debit_nonneg hnd hf hge h0
      · exact h0
  · exact h0

theorem processAll_nonneg (now : Int) :
    ∀ (ps : List RecurringPayment) (st : ProcState),
      (accountIds st.accounts).Nodup →
      (∀ a ∈ st.accounts, 0 ≤ a.balance) →
      (∀ p ∈ ps, 0 ≤ p.amount) →
      ∀ a ∈ (processAll now st ps).1.accounts, 0 ≤ a.balance := by
  intro ps
  induction ps with
  | nil =>
    intro st _ h0 _
    simpa [processAll] using h0
  | cons p t ih =>
    intro st hnd h0 hamt
    simp only [processAll]
    refine ih _ ?_ ?_ ?_
    · rw [processOnePayment_ids]
      exact hnd
    · exact processOnePayment_accounts_nonneg now st p hnd h0 (hamt p (List.mem_cons_self p t))
    · exact fun q hq => hamt q (List.mem_cons.mpr (Or.inr hq))

theorem processOnePayment_sum (now : Int) (st : ProcState) (p : RecurringPayment)
    (hnd : (accountIds st.accounts).Nodup)
    (hto : p.toAccountId ∈ accountIds st.accounts) :
    sumBalances (processOnePayment now st p).1.accounts = sumBalances st.accounts := by
  unfold processOnePayment
  split
  · split
    · rfl
    · rename_i fromA hf
      split
      · dsimp only
        split
        · dsimp only
          rw [sumBalances_adjust, sumBalances_adjust, adjustBalance_ids]
          have hfid : fromA.id = p.fromAccountId := by simpa using List.find?_some hf
          have h1 : (accountIds st.accounts).count p.fromAccountId = 1 := by
            rw [← hfid]
            exact count_accountIds_eq_one hnd (List.mem_of_find?_eq_some hf)
          rcases List.mem_map.mp hto with ⟨b, hb, hbid⟩
          have h2 : (accountIds st.accounts).count p.toAccountId = 1 := by
            rw [← hbid]
            exact count_accountIds_eq_one hnd hb
          rw [h1, h2]
          push_cast
          ring
        · rename_i hns
          exact absurd (mem_accountIds_isSome (by rw [adjustBalance_ids]; exact hto)) hns
      · rfl
  · rfl

theorem processAll_sum (now : Int) :
    ∀ (ps : List RecurringPayment) (st : ProcState),
      (accountIds st.accounts).Nodup →
      (∀ p ∈ ps, p.toAccountId ∈ accountIds st.accounts) →
      sumBalances (processAll now st ps).1.accounts = sumBalances st.accounts := by
  intro ps
  induction ps with
  | nil =>
    intro st _ _
    rfl
  | cons p t ih =>
    intro st hnd hto
    simp only [processAll]
    have hnd2 : (accountIds (processOnePayment now st p).1.accounts).Nodup := by
      rw [processOnePayment_ids]
      exact hnd
    have hto2 : ∀ q ∈ t, q.toAccountId ∈ accountIds (processOnePayment now st p).1.accounts := by
      intro q hq
      rw [processOnePayment_ids]
      exact hto q (List.mem_cons.mpr (Or.inr hq))
    rw [ih _ hnd2 hto2]
    exact processOnePayment_sum now st p hnd (hto p (List.mem_cons_self p t))

/-! ## Concrete fixtures for witnesses and counterexamples -/

def userAlice : User := ⟨1, "alice", "1234"⟩

def userBob : User := ⟨2, "bob", "5678"⟩

def acctA : Account := ⟨1, "1000000001", "personal", 250000, 1⟩

def acctB : Account := ⟨2, "1000000002", "personal", 250000, 2⟩

def acctBiz : Account := ⟨3, "1000000003", "business", 1000000, 1⟩

def stateAB : BankState := ⟨[userAlice, userBob], [acctA, acctB], [], []⟩

def stateOnlyB : BankState := ⟨[userAlice, userBob], [acctB], [], []⟩

/-- A monthly payment 40 days overdue at day 100: nextDue is day 60. -/
def payMonthly : RecurringPayment := ⟨1, 3, 2, 1000, "wages", "monthly", true, 60 * 86400⟩

def stateOverdue : BankState := ⟨[userAlice, userBob], [acctBiz, acctB], [], [payMonthly]⟩

/-- The state after one processor run over stateOverdue at day 100. -/
def stateMid : BankState :=
  ⟨[userAlice, userBob],
   [⟨3, "1000000003", "business", 999000, 1⟩, ⟨2, "1000000002", "personal", 251000, 2⟩],
   [⟨3, 2, 1000, "SALARY: wages", "salary"⟩],
   [⟨1, 3, 2, 1000, "wages", "monthly", true, 90 * 86400⟩]⟩

/-- A monthly payment 10 days overdue at day 100: nextDue is day 90. -/
def payDue : RecurringPayment := ⟨1, 3, 2, 1000, "wages", "monthly", true, 90 * 86400⟩

def stateDue : BankState := ⟨[userAlice, userBob], [acctBiz, acctB], [], [payDue]⟩

/-- A due payment whose source account (id 2, balance 250000) cannot cover it. -/
def payBroke : RecurringPayment := ⟨2, 2, 3, 500000, "too big", "weekly", true, 90 * 86400⟩

/-! ## Claims -/

/-- Claim C3: whenever transfer_money returns any error (missing account, not
owned by caller, invalid amount, or amount exceeding the source balance), the
returned state is exactly the input state: no account balance is mutated and
no Transaction is appended. -/
theorem claim_C3 (s : BankState) (uid : Nat) (fromN toN : String) (amount : ℚ)
    (descr : String) (e : TransferError)
    (h : (transfer_money s uid fromN toN amount descr).1 = .error e) :
    (transfer_money s uid fromN toN amount descr).2 = s := by
  by_cases h1 : fromN = "" ∨ toN = "" ∨ amount = 0
  · simp [transfer_money, h1]
  by_cases h2 : amount ≤ 0
  · simp [transfer_money, h1, h2]
  rcases h3 : s.accounts.find? fun a => a.accountNumber == fromN && a.userId == uid with _ | fromA
  · simp [transfer_money, h1, h2, h3]
  rcases h4 : s.accounts.find? fun a => a.accountNumber == toN with _ | toA
  · simp [transfer_money, h1, h2, h3, h4]
  by_cases h5 : fromA.balance < amount
  · simp [transfer_money, h1, h2, h3, h4, h5]
  · exfalso
    simp [transfer_money, h1, h2, h3, h4, h5] at h

theorem claim_C3_witness :
    (transfer_money stateAB 1 "1000000001" "1000000002" 300000 "").1 =
      .error .insufficientFunds ∧
    (transfer_money stateAB 1 "1000000001" "1000000002" 300000 "").2 = stateAB :=
  ⟨by rfl,
   claim_C3 stateAB 1 "1000000001" "1000000002" 300000 "" .insufficientFunds (by rfl)⟩

/-- Claim C2: no ledger operation leaves a balance negative.  In any state
with unique account ids, all balances non-negative and (for the registry,
which create_recurring_payment only ever extends with positive amounts, see
create_recurring_payment_amount_pos) non-negative payment amounts, the state
produced by transfer_money, by charge_customer and by
process_recurring_payments again has every balance non-negative. -/
theorem claim_C2 :
    (∀ (s : BankState) (uid : Nat) (fromN toN : String) (m : ℚ) (descr : String),
      WFAccounts s → (∀ a ∈ s.accounts, 0 ≤ a.balance) →
      ∀ a ∈ (transfer_money s uid fromN toN m descr).2.accounts, 0 ≤ a.balance) ∧
    (∀ (s : BankState) (uid : Nat) (busN cu cp : String) (m : ℚ) (reason descr : String),
      WFAccounts s → (∀ a ∈ s.accounts, 0 ≤ a.balance) →
      ∀ a ∈ (charge_customer s uid busN cu cp m reason descr).2.accounts, 0 ≤ a.balance) ∧
    (∀ (s : BankState) (now : Int),
      WFAccounts s → (∀ a ∈ s.accounts, 0 ≤ a.balance) →
      (∀ p ∈ s.recurringPayments, 0 ≤ p.amount) →
      ∀ a ∈ (process_recurring_payments s now).2.accounts, 0 ≤ a.balance) := by
  refine ⟨?_, ?_, ?_⟩
  · intro s uid fromN toN m descr hwf h0
    by_cases h1 : fromN = "" ∨ toN = "" ∨ m = 0
    · simpa [transfer_money, h1] using h0
    by_cases h2 : m ≤ 0
    · simpa [transfer_money, h1, h2] using h0
    rcases h3 : s.accounts.find? fun a => a.accountNumber == fromN && a.userId == uid with _ | fromA
    · simpa [transfer_money, h1, h2, h3] using h0
    rcases h4 : s.accounts.find? fun a => a.accountNumber == toN with _ | toA
    · simpa [transfer_money, h1, h2, h3, h4] using h0
    by_cases h5 : fromA.balance < m
    · simpa [transfer_money, h1, h2, h3, h4, h5] using h0
    · have hacc : (transfer_money s uid fromN toN m descr).2.accounts =
          adjustBalance (adjustBalance s.accounts fromA.id (-m)) toA.id m := by
        simp [transfer_money, h1, h2, h3, h4, h5]
      rw [hacc]
      exact credit_nonneg (le_of_lt (not_le.mp h2))
        (debit_nonneg_mem hwf (List.mem_of_find?_eq_some h3) (not_lt.mp h5) h0)
  · intro s uid busN cu cp m reason descr hwf h0
    by_cases h1 : busN = "" ∨ cu = "" ∨ cp = "" ∨ m = 0 ∨ reason = ""
    · simpa [charge_customer, h1] using h0
    by_cases h2 : m ≤ 0
    · simpa [charge_customer, h1, h2] using h0
    rcases h3 : s.accounts.find? fun a =>
        a.accountNumber == busN && a.userId == uid && a.accountType == "business" with _ | busA
    · simpa [charge_customer, h1, h2, h3] using h0
    rcases h4 : s.users.find? fun u => u.username == cu && u.pin == cp with _ | cust
    · simpa [charge_customer, h1, h2, h3, h4] using h0
    rcases h5 : s.accounts.find? fun a => a.userId == cust.id with _ | custA
    · simpa [charge_customer, h1, h2, h3, h4, h5] using h0
    by_cases h6 : custA.balance < m
    · simpa [charge_customer, h1, h2, h3, h4, h5, h6] using h0
    · have hacc : (charge_customer s uid busN cu cp m reason descr).2.accounts =
          adjustBalance (adjustBalance s.accounts custA.id (-m)) busA.id m := by
        simp [charge_customer, h1, h2, h3, h4, h5, h6]
      rw [hacc]
      exact credit_nonneg (le_of_lt (not_le.mp h2))
        (debit_nonneg_mem hwf (List.mem_of_find?_eq_some h5) (not_lt.mp h6) h0)
  · intro s now hwf h0 hamt
    exact processAll_nonneg now s.recurringPayments ⟨s.accounts, s.transactions, ⟨0, 0⟩⟩ hwf h0 hamt

theorem claim_C2_witness :
    (∀ a ∈ (transfer_money stateAB 1 "1000000001" "1000000002" 50000 "").2.accounts,
      0 ≤ a.balance) ∧
    (∀ a ∈ (charge_customer stateOverdue 1 "1000000003" "bob" "5678" 500 "inv" "").2.accounts,
      0 ≤ a.balance) ∧
    (∀ a ∈ (process_recurring_payments stateOverdue (100 * 86400)).2.accounts, 0 ≤ a.balance) :=
  ⟨claim_C2.1 stateAB 1 "1000000001" "1000000002" 50000 "" (by decide) (by decide),
   claim_C2.2.1 stateOverdue 1 "1000000003" "bob" "5678" 500 "inv" "" (by decide) (by decide),
   claim_C2.2.2 stateOverdue (100 * 86400) (by decide) (by decide) (by decide)⟩

/-- The registry invariant behind claim C2: a freshly created recurring
payment always carries a positive amount (create_recurring_payment rejects
any amount that is not strictly positive), so non-negative registry amounts
hold in every reachable state. -/
theorem create_recurring_payment_amount_pos (s : BankState) (uid : Nat)
    (busN recipN : String) (amount : ℚ) (descr freq : String) (now : Int)
    (hpos : ∀ p ∈ s.recurringPayments, 0 < p.amount) :
    ∀ p ∈ (create_recurring_payment s uid busN recipN amount descr freq now).2.recurringPayments,
      0 < p.amount := by
  by_cases h1 : busN = "" ∨ recipN = "" ∨ amount = 0
  · simpa [create_recurring_payment, h1] using hpos
  by_cases h2 : amount ≤ 0
  · simpa [create_recurring_payment, h1, h2] using hpos
  by_cases h3 : ¬(freq = "weekly" ∨ freq = "monthly" ∨ freq = "yearly")
  · simpa [create_recurring_payment, h1, h2, h3] using hpos
  rcases h4 : s.accounts.find? fun a =>
      a.accountNumber == busN && a.userId == uid && a.accountType == "business" with _ | busA
  · simpa [create_recurring_payment, h1, h2, h3, h4] using hpos
  rcases h5 : s.accounts.find? fun a => a.accountNumber == recipN with _ | recipA
  · simpa [create_recurring_payment, h1, h2, h3, h4, h5] using hpos
  · have hreg : (create_recurring_payment s uid busN recipN amount descr freq now).2.recurringPayments =
        s.recurringPayments ++
          [⟨nextRecurringId s, busA.id, recipA.id, amount, descr, freq, true,
            now + cadenceOffset freq⟩] := by
      simp [create_recurring_payment, h1, h2, h3, h4, h5]
    rw [hreg]
    intro p hp
    rcases List.mem_append.mp hp with hp1 | hp2
    · exact hpos p hp1
    · have : p = ⟨nextRecurringId s, busA.id, recipA.id, amount, descr, freq, true,
          now + cadenceOffset freq⟩ := by simpa using hp2
      subst this
      exact lt_of_not_le h2

theorem create_recurring_payment_amount_pos_witness :
    ∀ p ∈ (create_recurring_payment stateAB 1 "x" "y" 5 "d" "monthly" 0).2.recurringPayments,
      0 < p.amount :=
  create_recurring_payment_amount_pos stateAB 1 "x" "y" 5 "d" "monthly" 0 (by decide)

/-- Claim C9: every successful money-moving operation conserves money.  With
unique account ids (and, for the batch processor, intact to-account foreign
keys) the total of all balances is unchanged by a successful transfer_money,
a successful charge_customer, and a whole process_recurring_payments run,
each processed salary payment conserving the total along the way. -/
theorem claim_C9 :
    (∀ (s : BankState) (uid : Nat) (fromN toN : String) (m : ℚ) (descr : String)
       (t : Transaction), WFAccounts s →
      (transfer_money s uid fromN toN m descr).1 = .ok t →
      sumBalances (transfer_money s uid fromN toN m descr).2.accounts =
        sumBalances s.accounts) ∧
    (∀ (s : BankState) (uid : Nat) (busN cu cp : String) (m : ℚ) (reason descr : String)
       (t : Transaction), WFAccounts s →
      (charge_customer s uid busN cu cp m reason descr).1 = .ok t →
      sumBalances (charge_customer s uid busN cu cp m reason descr).2.accounts =
        sumBalances s.accounts) ∧
    (∀ (s : BankState) (now : Int), WFAccounts s →
      (∀ p ∈ s.recurringPayments, p.toAccountId ∈ accountIds s.accounts) →
      sumBalances (process_recurring_payments s now).2.accounts = sumBalances s.accounts) := by
  refine ⟨?_, ?_, ?_⟩
  · intro s uid fromN toN m descr t hwf hok
    by_cases h1 : fromN = "" ∨ toN = "" ∨ m = 0
    · simp [transfer_money, h1] at hok
    by_cases h2 : m ≤ 0
    · simp [transfer_money, h1, h2] at hok
    rcases h3 : s.accounts.find? fun a => a.accountNumber == fromN && a.userId == uid with _ | fromA
    · simp [transfer_money, h1, h2, h3] at hok
    rcases h4 : s.accounts.find? fun a => a.accountNumber == toN with _ | toA
    · simp [transfer_money, h1, h2, h3, h4] at hok
    by_cases h5 : fromA.balance < m
    · simp [transfer_money, h1, h2, h3, h4, h5] at hok
    · have hacc : (transfer_money s uid fromN toN m descr).2.accounts =
          adjustBalance (adjustBalance s.accounts fromA.id (-m)) toA.id m := by
        simp [transfer_money, h1, h2, h3, h4, h5]
      rw [hacc, sumBalances_adjust, sumBalances_adjust, adjustBalance_ids,
        count_accountIds_eq_one hwf (List.mem_of_find?_eq_some h3),
        count_accountIds_eq_one hwf (List.mem_of_find?_eq_some h4)]
      push_cast
      ring
  · intro s uid busN cu cp m reason descr t hwf hok
    by_cases h1 : busN = "" ∨ cu = "" ∨ cp = "" ∨ m = 0 ∨ reason = ""
    · simp [charge_customer, h1] at hok
    by_cases h2 : m ≤ 0
    · simp [charge_customer, h1, h2] at hok
    rcases h3 : s.accounts.find? fun a =>
        a.accountNumber == busN && a.userId == uid && a.accountType == "business" with _ | busA
    · simp [charge_customer, h1, h2, h3] at hok
    rcases h4 : s.users.find? fun u => u.username == cu && u.pin == cp with _ | cust
    · simp [charge_customer, h1, h2, h3, h4] at hok
    rcases h5 : s.accounts.find? fun a => a.userId == cust.id with _ | custA
    · simp [charge_customer, h1, h2, h3, h4, h5] at hok
    by_cases h6 : custA.balance < m
    · simp [charge_customer, h1, h2, h3, h4, h5, h6] at hok
    · have hacc : (charge_customer s uid busN cu cp m reason descr).2.accounts =
          adjustBalance (adjustBalance s.accounts custA.id (-m)) busA.id m := by
        simp [charge_customer, h1, h2, h3, h4, h5, h6]
      rw [hacc, sumBalances_adjust, sumBalances_adjust, adjustBalance_ids,
        count_accountIds_eq_one hwf (List.mem_of_find?_eq_some h5),
        count_accountIds_eq_one hwf (List.mem_of_find?_eq_some h3)]
      push_cast
      ring
  · intro s now hwf hto
    exact processAll_sum now s.recurringPayments ⟨s.accounts, s.transactions, ⟨0, 0⟩⟩ hwf hto

theorem claim_C9_witness :
    sumBalances (transfer_money stateAB 1 "1000000001" "1000000002" 50000 "").2.accounts =
      sumBalances stateAB.accounts ∧
    sumBalances (charge_customer stateOverdue 1 "1000000003" "bob" "5678" 500 "inv" "").2.accounts =
      sumBalances stateOverdue.accounts ∧
    sumBalances (process_recurring_payments stateOverdue (100 * 86400)).2.accounts =
      sumBalances stateOverdue.accounts :=
  ⟨claim_C9.1 stateAB 1 "1000000001" "1000000002" 50000 ""
      ⟨1, 2, 50000, "", "transfer"⟩ (by decide) (by rfl),
   claim_C9.2.1 stateOverdue 1 "1000000003" "bob" "5678" 500 "inv" ""
      ⟨2, 3, 500, "INVOICE: inv", "charge"⟩ (by decide) (by rfl),
   claim_C9.2.2 stateOverdue (100 * 86400) (by decide) (by decide)⟩

/-- Claim C1, counterexample to the unrestricted statement: with A = B (a
transfer from an account to itself, which the code accepts), the transfer
succeeds and still appends its Transaction, but the balance of A is NOT
decreased by m: it stays at 250000 instead of dropping to 200000. -/
theorem claim_C1_counterexample :
    (transfer_money stateAB 1 "1000000001" "1000000001" 50000 "").1 =
      .ok ⟨1, 1, 50000, "", "transfer"⟩ ∧
    (transfer_money stateAB 1 "1000000001" "1000000001" 50000 "").2.accounts =
      stateAB.accounts ∧
    acctA.balance ≠ acctA.balance - 50000 := by
  refine ⟨by rfl, ?_, ?_⟩
  · have h1 : ¬(("1000000001" : String) = "" ∨ ("1000000001" : String) = "" ∨
        (50000 : ℚ) = 0) := by decide
    have h2 : ¬((50000 : ℚ) ≤ 0) := by decide
    have h3 : stateAB.accounts.find?
        (fun a => a.accountNumber == "1000000001" && a.userId == 1) = some acctA := by decide
    have h4 : stateAB.accounts.find?
        (fun a => a.accountNumber == "1000000001") = some acctA := by decide
    have h5 : ¬(acctA.balance < (50000 : ℚ)) := by decide
    have hacc : (transfer_money stateAB 1 "1000000001" "1000000001" 50000 "").2.accounts =
        adjustBalance (adjustBalance stateAB.accounts acctA.id (-50000)) acctA.id 50000 := by
      simp [transfer_money, h1, h2, h3, h4, h5]
    rw [hacc]
    simpa using adjustBalance_cancel stateAB.accounts acctA.id (-50000)
  · intro hcon
    have h50 : (0 : ℚ) < 50000 := by decide
    linarith

/-- Claim C1 (amended: for two DISTINCT accounts A and B; a self-transfer is
covered by claim C10 and leaves the balance unchanged): a successful transfer
of m from A to B with 0 < m ≤ balance(A) decreases balance(A) by exactly m,
increases balance(B) by exactly m, appends exactly one Transaction of kind
transfer referencing A, B and m, and changes no other account and no other
table. -/
theorem claim_C1 (s : BankState) (uid : Nat) (fromN toN : String) (m : ℚ) (descr : String)
    (A B : Account)
    (hwf : WFAccounts s)
    (hfn : fromN ≠ "") (htn : toN ≠ "")
    (hA : s.accounts.find? (fun a => a.accountNumber == fromN && a.userId == uid) = some A)
    (hB : s.accounts.find? (fun a => a.accountNumber == toN) = some B)
    (hne : A.id ≠ B.id)
    (hm : 0 < m) (hle : m ≤ A.balance) :
    (transfer_money s uid fromN toN m descr).1 =
      .ok ⟨A.id, B.id, m, descr, "transfer"⟩ ∧
    (transfer_money s uid fromN toN m descr).2.transactions =
      s.transactions ++ [⟨A.id, B.id, m, descr, "transfer"⟩] ∧
    balanceOf (transfer_money s uid fromN toN m descr).2 A.id = some (A.balance - m) ∧
    balanceOf (transfer_money s uid fromN toN m descr).2 B.id = some (B.balance + m) ∧
    (∀ a ∈ s.accounts, a.id ≠ A.id → a.id ≠ B.id →
      ((transfer_money s uid fromN toN m descr).2.accounts.find? fun b => b.id == a.id) =
        some a) ∧
    (transfer_money s uid fromN toN m descr).2.users = s.users ∧
    (transfer_money s uid fromN toN m descr).2.recurringPayments = s.recurringPayments := by
  have h1 : ¬(fromN = "" ∨ toN = "" ∨ m = 0) := by
    push_neg
    exact ⟨hfn, htn, ne_of_gt hm⟩
  have h2 : ¬(m ≤ 0) := not_le.mpr hm
  have h5 : ¬(A.balance < m) := not_lt.mpr hle
  have heq : transfer_money s uid fromN toN m descr =
      (.ok ⟨A.id, B.id, m, descr, "transfer"⟩,
       { s with
         accounts := adjustBalance (adjustBalance s.accounts A.id (-m)) B.id m,
         transactions := s.transactions ++ [⟨A.id, B.id, m, descr, "transfer"⟩] }) := by
    simp [transfer_money, h1, h2, hA, hB, h5]
  rw [heq]
  have hfindA : s.accounts.find? (fun b => b.id == A.id) = some A :=
    find?_id_of_mem hwf (List.mem_of_find?_eq_some hA)
  have hfindB : s.accounts.find? (fun b => b.id == B.id) = some B :=
    find?_id_of_mem hwf (List.mem_of_find?_eq_some hB)
  refine ⟨rfl, rfl, ?_, ?_, ?_, rfl, rfl⟩
  · show balanceOf
      { s with
        accounts := adjustBalance (adjustBalance s.accounts A.id (-m)) B.id m,
        transactions := s.transactions ++ [⟨A.id, B.id, m, descr, "transfer"⟩] } A.id =
      some (A.balance - m)
    simp only [balanceOf, find?_adjustBalance, hfindA, Option.map_map]
    simp [hne, sub_eq_add_neg]
  · show balanceOf
      { s with
        accounts := adjustBalance (adjustBalance s.accounts A.id (-m)) B.id m,
        transactions := s.transactions ++ [⟨A.id, B.id, m, descr, "transfer"⟩] } B.id =
      some (B.balance + m)
    simp only [balanceOf, find?_adjustBalance, hfindB, Option.map_map]
    simp [Ne.symm hne]
  · intro a ha haA haB
    have hfinda : s.accounts.find? (fun b => b.id == a.id) = some a :=
      find?_id_of_mem hwf ha
    simp only [find?_adjustBalance, hfinda, Option.map_map]
    simp [haA, haB]

theorem claim_C1_witness :
    balanceOf (transfer_money stateAB 1 "1000000001" "1000000002" 50000 "").2 acctA.id =
      some (acctA.balance - 50000) ∧
    balanceOf (transfer_money stateAB 1 "1000000001" "1000000002" 50000 "").2 acctB.id =
      some (acctB.balance + 50000) := by
  have h := claim_C1 stateAB 1 "1000000001" "1000000002" 50000 "" acctA acctB
    (by decide) (by decide) (by decide) (by decide) (by decide) (by decide) (by decide)
    (by decide)
  exact ⟨h.2.2.1, h.2.2.2.1⟩

/-- Claim C10: a transfer whose source and destination account numbers name
the same account (owned by the caller, positive amount within balance)
succeeds, leaves the account table unchanged (debit and credit cancel), and
still appends one Transaction of kind transfer whose source and destination
references are that same account. -/
theorem claim_C10 (s : BankState) (uid : Nat) (n : String) (m : ℚ) (descr : String)
    (A : Account)
    (hwfn : WFNumbers s)
    (hn : n ≠ "")
    (hA : s.accounts.find? (fun a => a.accountNumber == n && a.userId == uid) = some A)
    (hm : 0 < m) (hle : m ≤ A.balance) :
    (transfer_money s uid n n m descr).1 = .ok ⟨A.id, A.id, m, descr, "transfer"⟩ ∧
    (transfer_money s uid n n m descr).2.accounts = s.accounts ∧
    (transfer_money s uid n n m descr).2.transactions =
      s.transactions ++ [⟨A.id, A.id, m, descr, "transfer"⟩] := by
  have h1 : ¬(n = "" ∨ n = "" ∨ m = 0) := by
    push_neg
    exact ⟨hn, hn, ne_of_gt hm⟩
  have h2 : ¬(m ≤ 0) := not_le.mpr hm
  have h5 : ¬(A.balance < m) := not_lt.mpr hle
  have hAn : A.accountNumber = n := by
    have h := List.find?_some hA
    simp only [Bool.and_eq_true, beq_iff_eq] at h
    exact h.1
  have hB : s.accounts.find? (fun a => a.accountNumber == n) = some A := by
    rw [← hAn]
    exact find?_number_of_mem hwfn (List.mem_of_find?_eq_some hA)
  have heq : transfer_money s uid n n m descr =
      (.ok ⟨A.id, A.id, m, descr, "transfer"⟩,
       { s with
         accounts := adjustBalance (adjustBalance s.accounts A.id (-m)) A.id m,
         transactions := s.transactions ++ [⟨A.id, A.id, m, descr, "transfer"⟩] }) := by
    simp [transfer_money, h1, h2, hA, hB, h5]
  rw [heq]
  refine ⟨rfl, ?_, rfl⟩
  show adjustBalance (adjustBalance s.accounts A.id (-m)) A.id m = s.accounts
  simpa using adjustBalance_cancel s.accounts A.id (-m)

theorem claim_C10_witness :
    (transfer_money stateAB 1 "1000000001" "1000000001" 40000 "self").1 =
      .ok ⟨1, 1, 40000, "self", "transfer"⟩ ∧
    (transfer_money stateAB 1 "1000000001" "1000000001" 40000 "self").2.accounts =
      stateAB.accounts := by
  have h := claim_C10 stateAB 1 "1000000001" 40000 "self" acctA
    (by decide) (by decide) (by decide) (by decide) (by decide)
  exact ⟨h.1, h.2.1⟩

/-- A run of the processor over a registry with no due payment does nothing:
it returns zero counters and the unchanged state. -/
theorem process_none_due (s : BankState) (now : Int)
    (h : ∀ p ∈ s.recurringPayments, dueNow now p = false) :
    process_recurring_payments s now = (⟨0, 0⟩, s) := by
  simp only [process_recurring_payments,
    processAll_none_due now s.recurringPayments ⟨s.accounts, s.transactions, ⟨0, 0⟩⟩ h]

/-- Claim C4, counterexample to the unrestricted statement: a monthly payment
40 days overdue (nextDue = day 60, now = day 100) is processed by the first
call, its nextDue advances only to day 90, which is still not after now, and
the second call at the same now processes it AGAIN instead of skipping it. -/
theorem claim_C4_counterexample :
    (process_recurring_payments stateOverdue (100 * 86400)).1.processed = 1 ∧
    (process_recurring_payments stateOverdue (100 * 86400)).2.recurringPayments =
      [⟨1, 3, 2, 1000, "wages", "monthly", true, 90 * 86400⟩] ∧
    ¬((100 : Int) * 86400 < 90 * 86400) ∧
    (process_recurring_payments (process_recurring_payments stateOverdue (100 * 86400)).2
        (100 * 86400)).1.processed = 1 := by
  have hmid : (process_recurring_payments stateOverdue (100 * 86400)).2 = stateMid := by
    have h1 : (process_recurring_payments stateOverdue (100 * 86400)).2 =
        ⟨[userAlice, userBob],
         adjustBalance (adjustBalance stateOverdue.accounts 3 (-1000)) 2 1000,
         [⟨3, 2, 1000, "SALARY: wages", "salary"⟩],
         [advancePayment payMonthly]⟩ := rfl
    rw [h1]
    have hw : ¬(("monthly" : String) = "weekly") := by decide
    simp only [stateMid, adjustBalance, advancePayment, cadenceOffset, payMonthly, acctBiz,
      acctB, stateOverdue, List.map_cons, List.map_nil, if_neg hw]
    norm_num
  refine ⟨?_, ?_, by decide, ?_⟩
  · rfl
  · rw [hmid]
    rfl
  · rw [hmid]
    rfl

/-- Claim C4 (amended: restricted to payments overdue by less than one
cadence interval, and to a first call in which no payment fails).  If every
due payment satisfies now < nextDue + cadenceOffset, and the first call
reports failed = 0, then after the first call every advanced nextDue is
strictly greater than now, so a second call at the same now finds nothing
due: it processes and fails nothing and leaves the state unchanged.  Without
that overdue bound the code re-processes the payment, as
claim_C4_counterexample shows. -/
theorem claim_C4 (s : BankState) (now : Int)
    (hdue : ∀ p ∈ s.recurringPayments, dueNow now p = true →
      now < p.nextPaymentDate + cadenceOffset p.frequency)
    (hfail : (process_recurring_payments s now).1.failed = 0) :
    process_recurring_payments (process_recurring_payments s now).2 now =
      (⟨0, 0⟩, (process_recurring_payments s now).2) := by
  have hreg : ∀ q ∈ (process_recurring_payments s now).2.recurringPayments,
      dueNow now q = false := by
    intro q hq
    have hf0 : (processAll now ⟨s.accounts, s.transactions, ⟨0, 0⟩⟩
        s.recurringPayments).1.tally.failed =
        (⟨s.accounts, s.transactions, (⟨0, 0⟩ : ProcessTally)⟩ : ProcState).tally.failed :=
      hfail
    rcases processAll_registry now s.recurringPayments ⟨s.accounts, s.transactions, ⟨0, 0⟩⟩
        hf0 q hq with ⟨p, hp, hcase⟩
    rcases hcase with ⟨hnd, rfl⟩ | ⟨hd, rfl⟩
    · exact hnd
    · have hlt := hdue p hp hd
      have hnle : ¬(p.nextPaymentDate + cadenceOffset p.frequency ≤ now) := by omega
      simp [dueNow, advancePayment, hnle]
  exact process_none_due (process_recurring_payments s now).2 now hreg

theorem claim_C4_witness :
    process_recurring_payments (process_recurring_payments stateDue (100 * 86400)).2
        (100 * 86400) =
      (⟨0, 0⟩, (process_recurring_payments stateDue (100 * 86400)).2) :=
  claim_C4 stateDue (100 * 86400) (by decide) (by rfl)

/-- Claim C5, counterexample to the distinguishable-kind part: naming an
existing, caller-owned but PERSONAL account in a charge produces exactly the
same error value as naming an account that does not exist at all, so the code
exposes no distinguishable NotBusinessAccount kind - both cases collapse into
the single not-found-or-not-owned error (and the state is unchanged, with
the customer fully funded). -/
theorem claim_C5_counterexample :
    charge_customer stateAB 1 "1000000001" "bob" "5678" 100 "invoice" "" =
      (.error .businessAccountNotFoundOrNotOwned, stateAB) ∧
    charge_customer stateOnlyB 1 "1000000001" "bob" "5678" 100 "invoice" "" =
      (.error .businessAccountNotFoundOrNotOwned, stateOnlyB) :=
  ⟨by rfl, by rfl⟩

/-- Claim C5 (amended: the failure is real and independent of funds, but its
kind is the combined business-account-not-found-or-not-owned error that the
code also returns for a missing or foreign account, not a separate
NotBusinessAccount kind): a charge naming an existing caller-owned account
whose kind is not business fails with that error and mutates nothing,
whatever the balances are. -/
theorem claim_C5 (s : BankState) (uid : Nat) (busN custUser custPin : String)
    (m : ℚ) (reason descr : String) (a : Account)
    (hwfn : WFNumbers s)
    (ha : a ∈ s.accounts) (han : a.accountNumber = busN) (hau : a.userId = uid)
    (hat : a.accountType ≠ "business")
    (hbn : busN ≠ "") (hcu : custUser ≠ "") (hcp : custPin ≠ "") (hr : reason ≠ "")
    (hm : 0 < m) :
    charge_customer s uid busN custUser custPin m reason descr =
      (.error .businessAccountNotFoundOrNotOwned, s) := by
  have h1 : ¬(busN = "" ∨ custUser = "" ∨ custPin = "" ∨ m = 0 ∨ reason = "") := by
    push_neg
    exact ⟨hbn, hcu, hcp, ne_of_gt hm, hr⟩
  have h2 : ¬(m ≤ 0) := not_le.mpr hm
  have hfind : s.accounts.find? (fun b =>
      b.accountNumber == busN && b.userId == uid && b.accountType == "business") = none := by
    rw [List.find?_eq_none]
    intro x hx hpred
    simp only [Bool.and_eq_true, beq_iff_eq] at hpred
    have hxa : x = a := number_mem_unique hwfn hx ha (by rw [hpred.1.1, han])
    rw [hxa] at hpred
    exact hat hpred.2
  simp [charge_customer, h1, h2, hfind]

theorem claim_C5_witness :
    charge_customer stateAB 1 "1000000001" "bob" "5678" 700000 "invoice" "x" =
      (.error .businessAccountNotFoundOrNotOwned, stateAB) :=
  claim_C5 stateAB 1 "1000000001" "bob" "5678" 700000 "invoice" "x" acctA
    (by decide) (by decide) (by decide) (by decide) (by decide) (by decide) (by decide)
    (by decide) (by decide) (by decide)

/-- Claim C6: a due, funded payment is advanced by exactly its fixed cadence
offset measured from its previous nextDue (never from now, which does not
appear in the update): weekly adds 7 days, monthly 30 days, yearly 365 days
of 86400 seconds. -/
theorem claim_C6 (now : Int) (st : ProcState) (p : RecurringPayment) (fromA : Account)
    (hd : dueNow now p = true)
    (hf : st.accounts.find? (fun a => a.id == p.fromAccountId) = some fromA)
    (hge : p.amount ≤ fromA.balance)
    (hto : p.toAccountId ∈ accountIds st.accounts) :
    (processOnePayment now st p).2 = advancePayment p ∧
    (advancePayment p).nextPaymentDate = p.nextPaymentDate + cadenceOffset p.frequency ∧
    (p.frequency = "monthly" →
      (advancePayment p).nextPaymentDate = p.nextPaymentDate + 30 * 86400) ∧
    (p.frequency = "weekly" →
      (advancePayment p).nextPaymentDate = p.nextPaymentDate + 7 * 86400) ∧
    (p.frequency = "yearly" →
      (advancePayment p).nextPaymentDate = p.nextPaymentDate + 365 * 86400) := by
  refine ⟨?_, rfl, ?_, ?_, ?_⟩
  · rw [processOnePayment_success_eq now st hd hf hge hto]
  · intro h
    simp [advancePayment, cadenceOffset, h]
  · intro h
    simp [advancePayment, cadenceOffset, h]
  · intro h
    simp [advancePayment, cadenceOffset, h]

theorem claim_C6_witness :
    (processOnePayment (100 * 86400) ⟨[acctBiz, acctB], [], ⟨0, 0⟩⟩ payDue).2 =
      advancePayment payDue ∧
    (advancePayment payDue).nextPaymentDate = payDue.nextPaymentDate + 30 * 86400 := by
  have h := claim_C6 (100 * 86400) ⟨[acctBiz, acctB], [], ⟨0, 0⟩⟩ payDue acctBiz
    (by decide) (by decide) (by decide) (by decide)
  exact ⟨h.1, h.2.2.1 (by decide)⟩

/-- Claim C7: a selected due payment whose source balance cannot cover its
amount is left completely untouched (the whole loop state, and the payment
row itself, are unchanged except the failed counter), and the operation
returns the processed/failed pair, which always accounts for every due
payment: processed + failed equals the number of due payments. -/
theorem claim_C7 :
    (∀ (now : Int) (st : ProcState) (p : RecurringPayment) (fromA : Account),
      dueNow now p = true →
      st.accounts.find? (fun a => a.id == p.fromAccountId) = some fromA →
      fromA.balance < p.amount →
      processOnePayment now st p =
        ({ st with tally := { st.tally with failed := st.tally.failed + 1 } }, p)) ∧
    (∀ (s : BankState) (now : Int),
      (process_recurring_payments s now).1.processed +
        (process_recurring_payments s now).1.failed =
        s.recurringPayments.countP (dueNow now)) := by
  constructor
  · intro now st p fromA hd hf hlt
    exact processOnePayment_fail_eq now st hd hf hlt
  · intro s now
    have h := processAll_tally now s.recurringPayments ⟨s.accounts, s.transactions, ⟨0, 0⟩⟩
    simpa using h

theorem claim_C7_witness :
    processOnePayment (100 * 86400) ⟨[acctB], [], ⟨0, 0⟩⟩ payBroke =
      (⟨[acctB], [], ⟨0, 1⟩⟩, payBroke) ∧
    (process_recurring_payments stateOverdue (100 * 86400)).1.processed +
      (process_recurring_payments stateOverdue (100 * 86400)).1.failed =
      stateOverdue.recurringPayments.countP (dueNow (100 * 86400)) := by
  constructor
  · exact claim_C7.1 (100 * 86400) ⟨[acctB], [], ⟨0, 0⟩⟩ payBroke acctB
      (by decide) (by decide) (by decide)
  · exact claim_C7.2 stateOverdue (100 * 86400)

theorem deactivate_id (pid : Nat) (p : RecurringPayment) : (deactivate pid p).id = p.id := by
  unfold deactivate
  split <;> rfl

theorem deactivate_fromAccountId (pid : Nat) (p : RecurringPayment) :
    (deactivate pid p).fromAccountId = p.fromAccountId := by
  unfold deactivate
  split <;> rfl

theorem deactivate_idem (pid : Nat) (p : RecurringPayment) :
    deactivate pid (deactivate pid p) = deactivate pid p := by
  unfold deactivate
  by_cases hp : p.id = pid <;> simp [hp]

theorem find?_deactivate (l : List RecurringPayment) (pid : Nat) :
    (l.map (deactivate pid)).find? (fun p => p.id == pid) =
      (l.find? (fun p => p.id == pid)).map (deactivate pid) := by
  induction l with
  | nil => rfl
  | cons p t ih =>
    by_cases hp : p.id = pid
    · have h2 : ((deactivate pid p).id == pid) = true := by
        rw [deactivate_id]
        simpa using hp
      have h3 : (p.id == pid) = true := by simpa using hp
      simp only [List.map_cons, List.find?_cons, h2, h3]
      rfl
    · have h2 : ((deactivate pid p).id == pid) = false := by
        rw [deactivate_id]
        simpa using hp
      have h3 : (p.id == pid) = false := by simpa using hp
      simp only [List.map_cons, List.find?_cons, h2, h3]
      exact ih

theorem map_deactivate_idem (l : List RecurringPayment) (pid : Nat) :
    (l.map (deactivate pid)).map (deactivate pid) = l.map (deactivate pid) := by
  rw [List.map_map]
  exact List.map_congr_left fun p _ => deactivate_idem pid p

/-- Claim C8: cancelling a recurring payment whose source account is a
business account owned by the caller succeeds, flips exactly the active flag
of the rows with that payment id (no other field and no other table is
touched), and is idempotent: a second cancel of the now-inactive payment
succeeds again and changes nothing. -/
theorem claim_C8 (s : BankState) (uid pid : Nat) (rp : RecurringPayment) (acct : Account)
    (hrp : s.recurringPayments.find? (fun p => p.id == pid) = some rp)
    (hacct : s.accounts.find? (fun a =>
        a.id == rp.fromAccountId && a.userId == uid && a.accountType == "business") =
      some acct) :
    (cancel_recurring_payment s uid pid).1 = .ok () ∧
    (cancel_recurring_payment s uid pid).2.recurringPayments =
      s.recurringPayments.map
        (fun p => if p.id = pid then { p with isActive := false } else p) ∧
    (cancel_recurring_payment s uid pid).2.accounts = s.accounts ∧
    (cancel_recurring_payment s uid pid).2.transactions = s.transactions ∧
    (cancel_recurring_payment s uid pid).2.users = s.users ∧
    cancel_recurring_payment (cancel_recurring_payment s uid pid).2 uid pid =
      (.ok (), (cancel_recurring_payment s uid pid).2) := by
  have heq : cancel_recurring_payment s uid pid =
      (.ok (), { s with recurringPayments := s.recurringPayments.map (deactivate pid) }) := by
    simp only [cancel_recurring_payment, hrp, hacct]
  rw [heq]
  refine ⟨rfl, rfl, rfl, rfl, rfl, ?_⟩
  have hrp2 : (s.recurringPayments.map (deactivate pid)).find? (fun p => p.id == pid) =
      some (deactivate pid rp) := by
    rw [find?_deactivate, hrp]
    rfl
  have hacct2 : s.accounts.find? (fun a =>
      a.id == (deactivate pid rp).fromAccountId && a.userId == uid &&
        a.accountType == "business") = some acct := by
    rw [deactivate_fromAccountId]
    exact hacct
  have heq2 : cancel_recurring_payment
      { s with recurringPayments := s.recurringPayments.map (deactivate pid) } uid pid =
      (.ok (), { s with recurringPayments :=
        (s.recurringPayments.map (deactivate pid)).map (deactivate pid) }) := by
    simp only [cancel_recurring_payment, hrp2, hacct2]
  rw [heq2, map_deactivate_idem]

theorem claim_C8_witness :
    (cancel_recurring_payment stateOverdue 1 1).1 = .ok () ∧
    (cancel_recurring_payment stateOverdue 1 1).2.accounts = stateOverdue.accounts ∧
    cancel_recurring_payment (cancel_recurring_payment stateOverdue 1 1).2 1 1 =
      (.ok (), (cancel_recurring_payment stateOverdue 1 1).2) := by
  have h := claim_C8 stateOverdue 1 1 payMonthly acctBiz (by decide) (by decide)
  exact ⟨h.1, h.2.2.1, h.2.2.2.2.2⟩

end Bank
